import Mathlib

/-!
Verification of the `eass.h` single-header library (dynamic tagged values,
growable arrays, template formatter, console printer).

The C code is shallowly embedded as executable Lean definitions:

* `DVal` models `DynamicValue` (tagged union `EassType` + `error` flag).
  Owned heap payloads (`char* s` of a `EASS_STRING`, the `data` buffer of a
  `EASS_ARRAY`) additionally carry an abstract heap identifier (`sid`,
  `bufId`) so that release/ownership behaviour is observable.
* `DynArrOf` models `DynamicArray`.  Its `data` field is the malloc'd
  buffer: a list of length `capacity` (for well-formed states) whose
  entries are `Option DVal` — `none` stands for an uninitialized slot
  (fresh `malloc`/`realloc` memory), `some v` for a stored value.
* Machine sizes (`size_t`, `int new_cap`) are modelled as `Nat`: no claim
  exercises counts anywhere near `INT_MAX` (a `DynamicValue` is ~32 bytes,
  so 2^31 elements are physically unreachable), hence overflow of the
  capacity arithmetic is out of scope.
* Allocation (`malloc`/`realloc`) is given by an explicit `allocOk : Bool`
  oracle at each call site together with a fresh buffer identifier; the
  failing branches of the C code are modelled faithfully.
* The thread-local error channel (`eass_last_error`) is modelled by the
  `Option EassError` component returned by each fallible operation (the
  channel write that the call performs, if any).
* Undefined behaviour (reads of uninitialized memory whose value then
  steers control flow, out-of-bounds reads, `va_arg` past the supplied
  arguments, scanning past the NUL terminator) is modelled by `Option`
  / a dedicated `ub` result: no defined output is promised there.
* `printf("%f", ...)` rendering of a C `float` is treated as an external
  collaborator: a parameter `rf : Nat → String` mapping the float's bit
  pattern to its rendered text.  No claim depends on its value.
-/

/-- `EassType` of `eass.h` (the `type` tag of `DynamicValue`). -/
inductive EassType where
  | eInt
  | eFloat
  | eString
  | eArray
  | eNull
deriving DecidableEq, Repr

/-- `DynamicArray` (parameterized by the element type so that it can be
nested inside `DVal`).  `data` is the malloc'd buffer (`none` entries are
uninitialized slots); `bufId` is the abstract identity of that buffer
(`none` when `data == NULL`). -/
structure DynArrOf (α : Type) where
  data : List (Option α)
  size : Nat
  capacity : Nat
  error : Bool
  bufId : Option Nat
deriving Repr

/-- `DynamicValue`: tagged union with an `error` flag.  `vString` carries
the abstract heap identifier `sid` of its `char*` payload in addition to
the text; `vArray` carries a nested `DynArrOf`. -/
inductive DVal where
  | vInt (err : Bool) (i : Int)
  | vFloat (err : Bool) (bits : Nat)
  | vString (err : Bool) (sid : Nat) (s : String)
  | vArray (err : Bool) (arr : DynArrOf DVal)
  | vNull (err : Bool)
deriving Repr

/-- The `error` field of a `DynamicValue`. -/
def DVal.error : DVal → Bool
  | .vInt e _ => e
  | .vFloat e _ => e
  | .vString e _ _ => e
  | .vArray e _ => e
  | .vNull e => e

/-- The `type` tag of a `DynamicValue`. -/
def DVal.type : DVal → EassType
  | .vInt _ _ => .eInt
  | .vFloat _ _ => .eFloat
  | .vString _ _ _ => .eString
  | .vArray _ _ => .eArray
  | .vNull _ => .eNull

abbrev DynArr := DynArrOf DVal

/-- `EassError`: the error-channel slot (`int code` + message). -/
structure EassError where
  code : Int
  message : String
deriving DecidableEq, Repr

/-- `EINVAL` on the platforms the header targets. -/
def EINVAL : Int := 22

/-- `ENOMEM` on the platforms the header targets. -/
def ENOMEM : Int := 12

/-- The failed Null value `(DynamicValue){EASS_NULL, 1, .value.i = 0}`
returned by the array accessors on error. -/
def nullFailed : DVal := DVal.vNull true

/-- `printf("Error: %d - %s", error->code, error->message)` — the error
description written by `print` and by `string_format`'s abort paths; `es`
is the current error-channel slot. -/
def errText (es : EassError) : String :=
  "Error: " ++ toString es.code ++ " - " ++ es.message

/-! ### `numlit` static dispatch (C5)

The `numlit` macro (eass.h lines 446–456) is a `_Generic` selection over
the static C type of its argument.  As written, its association list
groups the type names `int`, `float` and `double` together in front of a
single `:`, all mapping to the `EASS_FLOAT` construction, with `default`
mapping to `EASS_INT`:

    _Generic((x), int , float , double : {EASS_FLOAT, 0, .value.f = ...},
                  default              : {EASS_INT, 0, .value.i = ...})

(The function fallback `DynamicValue numlit(double value)` at lines
574–582 takes a `double` parameter, so its own `_Generic` always selects
the `double` branch — also `EASS_FLOAT`.)  We model the dispatch at the
level of static argument types. -/

/-- The static C arithmetic types relevant to the `_Generic` dispatch. -/
inductive CNumType where
  | cBool
  | cChar
  | cSChar
  | cUChar
  | cShort
  | cUShort
  | cInt
  | cUInt
  | cLong
  | cULong
  | cLongLong
  | cULongLong
  | cFloat
  | cDouble
deriving DecidableEq, Repr

/-- Whether a static C type is an integral type. -/
def CNumType.isIntegral : CNumType → Bool
  | .cFloat => false
  | .cDouble => false
  | _ => true

/-- The `kind` tag that the `numlit` macro's `_Generic` association
produces for each static argument type, exactly as written in the source:
the grouped association `int, float, double` selects the `EASS_FLOAT`
construction, everything else falls to `default` (`EASS_INT`). -/
def numlitKind : CNumType → EassType
  | .cInt => .eFloat
  | .cFloat => .eFloat
  | .cDouble => .eFloat
  | _ => .eInt

/-! ### Dynamic array operations -/

/-- `array(initial_capacity)` (lines 585–604).  `capacity == 0` allocates
nothing (`data = NULL`).  On `malloc` failure (`allocOk = false`) the C
code sets `arr.error = 1` and returns with `size`/`capacity` never
assigned (indeterminate); the model picks `0` for both — no claim depends
on them.  The second component is the error-channel write performed. -/
def array (allocOk : Bool) (fid : Nat) (initial_capacity : Nat) :
    DynArr × Option EassError :=
  if initial_capacity = 0 then
    (⟨[], 0, 0, false, none⟩, none)
  else if allocOk then
    (⟨List.replicate initial_capacity none, 0, initial_capacity, false, some fid⟩, none)
  else
    (⟨[], 0, 0, true, none⟩, some ⟨ENOMEM, "malloc failed in array"⟩)

/-- `array_append` (lines 607–644), non-embedded (`realloc`) configuration
— the one compiled on the documented platforms (Windows/Linux/macOS).
The `arr == NULL` branch is not modelled (the embedding has no null
pointers).  Growth: `new_cap = capacity + (capacity >> 1)`, raised to 4;
`realloc` preserves the old contents and leaves the new tail
uninitialized. -/
def array_append (allocOk : Bool) (fid : Nat) (arr : DynArr) (val : DVal) :
    DynArr × Option EassError :=
  if arr.error then (arr, none)
  else if arr.size ≥ arr.capacity then
    let nc0 := arr.capacity + arr.capacity / 2
    let new_cap := if nc0 < 4 then 4 else nc0
    if allocOk then
      let grown := arr.data.take new_cap ++ List.replicate (new_cap - arr.data.length) none
      ({ arr with data := grown.set arr.size (some val),
                  size := arr.size + 1, capacity := new_cap, bufId := some fid }, none)
    else
      ({ arr with error := true }, some ⟨ENOMEM, "realloc failed in array_append"⟩)
  else
    ({ arr with data := arr.data.set arr.size (some val), size := arr.size + 1 }, none)

/-- The in-place right-shift loop of `array_insert` (lines 975–977):
`for (i = size; i > index; i--) data[i] = data[i-1];`, modelled as `n`
iterations starting at `i = index + n` (the call site uses
`n = size - index`).  The read `l[...]` is in bounds for well-formed
states; `getD none` never fires there. -/
def insShift (index : Nat) : Nat → List (Option DVal) → List (Option DVal)
  | 0, l => l
  | n + 1, l => insShift index n (l.set (index + n + 1) (l[index + n]?.getD none))

/-- `array_insert` (lines 936–983), non-embedded (`realloc`) configuration.
Note the growth branch: after `realloc` the source stores `val` at
`index` **without shifting** the elements at `≥ index` (the shift loop
lives only in the `else` branch), so the old element at `index` is
overwritten and slot `size` (freshly reallocated, uninitialized) becomes
part of the logical contents. -/
def array_insert (allocOk : Bool) (fid : Nat) (arr : DynArr) (index : Nat) (val : DVal) :
    DynArr × Option EassError :=
  if arr.error then (arr, none)
  else if index > arr.size then
    (arr, some ⟨EINVAL, "Index out of bounds in array_insert"⟩)
  else if arr.size ≥ arr.capacity then
    let new_cap := if arr.capacity = 0 then 4 else arr.capacity * 2
    if allocOk then
      let grown := arr.data.take new_cap ++ List.replicate (new_cap - arr.data.length) none
      ({ arr with data := grown.set index (some val),
                  size := arr.size + 1, capacity := new_cap, bufId := some fid }, none)
    else
      ({ arr with error := true }, some ⟨ENOMEM, "realloc failed in array_insert"⟩)
  else
    ({ arr with data := (insShift index (arr.size - index) arr.data).set index (some val),
                size := arr.size + 1 }, none)

/-- The growth branch of `array_insert` in the `EASS_ENABLE_EMBEDDED`
configuration (lines 952–962): a fresh buffer with
`memcpy(new, old, index)` and `memcpy(new + index + 1, old + index,
size - index)`, i.e. a copy split around `index`. -/
def array_insert_embedded (allocOk : Bool) (fid : Nat) (arr : DynArr) (index : Nat)
    (val : DVal) : DynArr × Option EassError :=
  if arr.error then (arr, none)
  else if index > arr.size then
    (arr, some ⟨EINVAL, "Index out of bounds in array_insert"⟩)
  else if arr.size ≥ arr.capacity then
    let new_cap := if arr.capacity = 0 then 4 else arr.capacity * 2
    if allocOk then
      let grown := arr.data.take index ++ [none]
        ++ ((arr.data.take arr.size).drop index)
        ++ List.replicate (new_cap - arr.size - 1) none
      ({ arr with data := grown.set index (some val),
                  size := arr.size + 1, capacity := new_cap, bufId := some fid }, none)
    else
      ({ arr with error := true }, some ⟨ENOMEM, "malloc failed in array_insert (embedded)"⟩)
  else
    ({ arr with data := (insShift index (arr.size - index) arr.data).set index (some val),
                size := arr.size + 1 }, none)

/-- The left-shift loop of `array_remove` (lines 1002–1004):
`for (i = index; i < size - 1; i++) data[i] = data[i+1];`, modelled as
`n` iterations starting at `index` (the call site uses
`n = (size - 1) - index`). -/
def remShift : Nat → Nat → List (Option DVal) → List (Option DVal)
  | _, 0, l => l
  | index, n + 1, l => remShift (index + 1) n (l.set index (l[index + 1]?.getD none))

/-- `array_remove` (lines 986–1008).  Result `none` marks undefined
behaviour (copying an uninitialized slot out of the buffer); otherwise
the triple is (returned value, array afterwards, error-channel write). -/
def array_remove (arr : DynArr) (index : Nat) :
    Option (DVal × DynArr × Option EassError) :=
  if arr.error then some (nullFailed, arr, none)
  else if index ≥ arr.size then
    some (nullFailed, arr, some ⟨EINVAL, "Index out of bounds in array_remove"⟩)
  else
    match arr.data[index]? with
    | some (some v) =>
        some (v, { arr with data := remShift index (arr.size - 1 - index) arr.data,
                            size := arr.size - 1 }, none)
    | _ => none

/-- `array_get` (lines 1011–1025).  Returns the stored `DynamicValue`
verbatim (a struct copy: `Text`/`Array` payload pointers are shared with
the array — a shallow copy).  Result `none` marks an uninitialized or
out-of-buffer read. -/
def array_get (arr : DynArr) (index : Nat) : Option (DVal × Option EassError) :=
  if arr.error then some (nullFailed, none)
  else if index ≥ arr.size then
    some (nullFailed, some ⟨EINVAL, "Index out of bounds in array_get"⟩)
  else
    match arr.data[index]? with
    | some (some v) => some (v, none)
    | _ => none

-- quick sanity checks while developing
example :
    (array_append true 0 (array true 0 0).1 (DVal.vInt false 7)).1.data
      = [some (DVal.vInt false 7), none, none, none] := rfl
example : (array_append true 0 (array true 0 0).1 (DVal.vInt false 7)).1.size = 1 := rfl
example : (array_append true 0 (array true 0 0).1 (DVal.vInt false 7)).1.capacity = 4 := rfl

/-! ### Release model (`free_dynamic_value` / `free_dynamic_array`)

Releasing is modelled by its observable effect on the abstract heap: the
list of heap identifiers freed, in order.  `free_dynamic_value`
(lines 658–673) frees the `char*` of a `EASS_STRING` and recursively
releases a `EASS_ARRAY` payload via `free_dynamic_array` (lines 647–655),
which releases the first `size` slots and then frees the buffer itself.
An uninitialized slot holds an indeterminate `DynamicValue`; the model
attributes no identifier to releasing it (no claim exercises that). -/

/-- `free(ptr)` on an optional buffer identifier (`free(NULL)` is a no-op). -/
def optFree : Option Nat → List Nat
  | some b => [b]
  | none => []

mutual

/-- Heap identifiers freed by `free_dynamic_value` (lines 658–673). -/
def free_dynamic_value : DVal → List Nat
  | .vInt _ _ => []
  | .vFloat _ _ => []
  | .vString _ sid _ => [sid]
  | .vNull _ => []
  | .vArray _ a => freeVals a.data a.size ++ optFree a.bufId

/-- Identifiers freed by the element loop of `free_dynamic_array`
(release the first `n` slots of the buffer). -/
def freeVals : List (Option DVal) → Nat → List Nat
  | _, 0 => []
  | [], _ + 1 => []
  | none :: rest, n + 1 => freeVals rest n
  | some v :: rest, n + 1 => free_dynamic_value v ++ freeVals rest n

end

/-- Heap identifiers freed by `free_dynamic_array` (lines 647–655):
the first `size` slots, then the buffer. -/
def free_dynamic_array (a : DynArr) : List Nat :=
  freeVals a.data a.size ++ optFree a.bufId

/-! ### Value rendering

Both `print` and `string_format` render one `DynamicValue` per
placeholder: `%d` for `EASS_INT`, `%f` for `EASS_FLOAT` (the collaborator
parameter `rf`), raw bytes for `EASS_STRING`, `NULL` for `EASS_NULL`, and
`Array[` + elements + `]` for `EASS_ARRAY`, where the element loop
handles only int/float/string elements (anything else contributes no
text) and appends `", "` after every element except the last.  The two
functions differ in one point: `string_format`'s element loop aborts the
whole call (returning `NULL`) when an element has `error` set
(lines 762–770), `print`'s does not. -/

/-- Result of a `string_format` call: `ub` = undefined behaviour,
`fail` = the C function returns `NULL`, `ok s` = returns the string `s`. -/
inductive FmtRes where
  | ub
  | fail
  | ok (s : String)
deriving DecidableEq, Repr

/-- The `EASS_ARRAY` element loop of `print` (lines 487–503).  `total` is
`val.value.a.size`; reading an uninitialized slot is undefined. -/
def renderPrintArr (rf : Nat → String) (total : Nat) :
    List (Option DVal) → Nat → String → Option String
  | [], _, acc => some acc
  | none :: _, _, _ => none
  | some e :: rest, i, acc =>
      let piece : String :=
        match e with
        | .vInt _ n => toString n
        | .vFloat _ b => rf b
        | .vString _ _ s => s
        | _ => ""
      let sep : String := if i < total - 1 then ", " else ""
      renderPrintArr rf total rest (i + 1) (acc ++ piece ++ sep)

/-- Rendering of one consumed `DynamicValue` by `print` (lines 476–510). -/
def renderPrint (rf : Nat → String) : DVal → Option String
  | .vInt _ n => some (toString n)
  | .vFloat _ b => some (rf b)
  | .vString _ _ s => some s
  | .vNull _ => some "NULL"
  | .vArray _ a =>
      if a.data.length < a.size then none
      else (renderPrintArr rf a.size (a.data.take a.size) 0 "").map
        (fun body => "Array[" ++ body ++ "]")

/-- One output write of `string_format`'s pass 2:
`out_p += snprintf(out_p, formatted_length + 1 - (out_p - formatted_string), ...)`.
The piece lands untruncated iff it fits the remaining budget
(`out.length + piece.length ≤ flen`, the buffer holding `flen + 1` bytes);
otherwise `snprintf` truncates but returns the untruncated length, so
`out_p` advances past the buffer and the next write (another piece, a
literal character, an abort write, or the final NUL) is out of bounds —
undefined (`none`). -/
def writePiece (flen : Nat) (out piece : String) : Option String :=
  if out.length + piece.length ≤ flen then some (out ++ piece) else none

/-- The abort write of the two top-level `val.error` branches (lines 741
and 797): `snprintf(out_p, formatted_length + 1, "Error: %d - %s", ...)`
followed by freeing everything and returning `NULL`.  Its `size` argument
is the whole buffer size regardless of `out_p`'s position, so the call
stays in bounds only when the written prefix of the error text —
`min(length, flen)` bytes plus the terminator — still fits after `out_p`;
otherwise it overflows the heap buffer (undefined). -/
def abortWrite (es : EassError) (flen : Nat) (out : String) : FmtRes :=
  if out.length + min (errText es).length flen ≤ flen then .fail else .ub

/-- The `EASS_ARRAY` element loop of `string_format` (lines 759–780 and
815–836): for `i` in `0..size-1`, read `data[i]` (undefined when the slot
is uninitialized or past the buffer); an element with `error` set aborts
the call returning `NULL` — this abort's `snprintf` (lines 765/821) is
sized by the *remaining* budget and the position here is always inside
the buffer, so the abort is defined (`.fail`); otherwise write the
element's text (one `snprintf`; element types without an `if` branch
write nothing), then the `", "` separator when `i < size - 1` (one
`snprintf`).  `n` counts the iterations left; the caller passes
`n = i = size`. -/
def renderFmtArr (rf : Nat → String) (flen : Nat)
    (data : List (Option DVal)) (total : Nat) : Nat → Nat → String → FmtRes
  | 0, _, out => .ok out
  | n + 1, i, out =>
      match data[i]? with
      | none => .ub
      | some none => .ub
      | some (some e) =>
        if e.error then .fail
        else
          let step1 : Option String :=
            match e with
            | .vInt _ m => writePiece flen out (toString m)
            | .vFloat _ b => writePiece flen out (rf b)
            | .vString _ _ s => writePiece flen out s
            | _ => some out
          match step1 with
          | none => .ub
          | some out1 =>
            match (if i < total - 1 then writePiece flen out1 ", " else some out1) with
            | none => .ub
            | some out2 => renderFmtArr rf flen data total n (i + 1) out2

/-- Rendering of one `DynamicValue` by `string_format` (the `switch` at
lines 747–786 / 803–842), writing at the current output position with the
per-call `snprintf` budget checks. -/
def renderFmtVal (rf : Nat → String) (flen : Nat) (v : DVal) (out : String) : FmtRes :=
  match v with
  | .vInt _ n =>
      match writePiece flen out (toString n) with
      | none => .ub
      | some o => .ok o
  | .vFloat _ b =>
      match writePiece flen out (rf b) with
      | none => .ub
      | some o => .ok o
  | .vString _ _ s =>
      match writePiece flen out s with
      | none => .ub
      | some o => .ok o
  | .vNull _ =>
      match writePiece flen out "NULL" with
      | none => .ub
      | some o => .ok o
  | .vArray _ a =>
      match writePiece flen out "Array[" with
      | none => .ub
      | some out1 =>
        match renderFmtArr rf flen a.data a.size a.size 0 out1 with
        | .ok out2 =>
            match writePiece flen out2 "]" with
            | none => .ub
            | some o => .ok o
        | r => r

/-! ### `string_format` (lines 676–859)

Two passes over the template.  Pass 1 counts: `arg_count` (incremented by
each `\x7b\x7d`, raised to the parsed index by each `\x7b<digit>`), the output
budget `formatted_length` (128 bytes per placeholder plus one byte per
literal character — the buffer is malloc'd with `formatted_length + 1`
bytes), and the number of `va_arg` reads.  Pass 2 re-scans, consuming the
variadic list at each `\x7b\x7d` and capturing the consumed value into the
`arg_values` buffer (sized `arg_count`, entries initialized only in their
`type` field — to `EASS_NULL` — so reading a never-captured entry
inspects an indeterminate `error` flag: undefined).  `\x7b<digit>`
placeholders advance the scan by exactly three characters (`p += 3`) with
the index parsed by `strtol` from the full digit run; if only two
characters remain the scan runs past the NUL terminator: undefined.
Every output write is bounds-modelled: rendered pieces go through
`writePiece` (truncation = undefined), literal characters through the
unchecked `*out_p++ = *p++` (defined iff the position is still inside the
buffer), the final `*out_p = '\0'` likewise, and the top-level abort
writes through `abortWrite`. -/

/-- `strtol(p, NULL, 10)` on a digit run (the call sites guarantee the
first character is a digit): value of the maximal digit prefix. -/
def digitRun : List Char → Nat → Nat
  | [], acc => acc
  | c :: rest, acc =>
      if c.isDigit then digitRun rest (acc * 10 + (c.toNat - 48)) else acc

/-- Pass 1 of `string_format` (lines 685–710): accumulates
(`arg_count`, `formatted_length`, `va_arg` count); `none` = the scan ran
past the end of the template (undefined). -/
def fmtPass1 : Nat → Nat → Nat → List Char → Option (Nat × Nat × Nat)
  | a, f, v, [] => some (a, f, v)
  | a, f, v, c :: rest =>
    if c = '{' then
      match rest with
      | [] => some (a, f + 1, v)
      | c1 :: rest' =>
        if c1 = '}' then fmtPass1 (a + 1) (f + 128) (v + 1) rest'
        else if c1.isDigit then
          match rest' with
          | [] => none
          | _ :: rest'' =>
              fmtPass1 (max (digitRun (c1 :: rest') 0) a) (f + 128) (v + 1) rest''
        else fmtPass1 a (f + 1) v (c1 :: rest')
    else fmtPass1 a (f + 1) v rest

/-- Pass 2 of `string_format` (lines 730–851): `args` is the remaining
variadic list, `buf` the `arg_values` capture buffer (slot `none` = only
the `type` field initialized), `cur` is `current_arg`, `out` the output
written so far (its length is `out_p - formatted_string`), `flen` the
`formatted_length` budget from pass 1.  A literal character is written by
the unchecked `*out_p++ = *p++`: in bounds iff `out.length ≤ flen`; the
final `*out_p = '\0'` (line 852) likewise. -/
def fmtPass2 (rf : Nat → String) (es : EassError) (acount flen : Nat) :
    List Char → List DVal → List (Option DVal) → Nat → String → FmtRes
  | [], _, _, _, out =>
      if out.length ≤ flen then .ok out else .ub
  | c :: rest, args, buf, cur, out =>
    if c = '{' then
      match rest with
      | [] =>
          if out.length ≤ flen then
            if (out.push c).length ≤ flen then .ok (out.push c) else .ub
          else .ub
      | c1 :: rest' =>
        if c1 = '}' then
          match args with
          | [] => .ub
          | v :: args' =>
            let buf' := if cur < acount then buf.set cur (some v) else buf
            if v.error then abortWrite es flen out
            else
              match renderFmtVal rf flen v out with
              | .ub => .ub
              | .fail => .fail
              | .ok out1 => fmtPass2 rf es acount flen rest' args' buf' (cur + 1) out1
        else if c1.isDigit then
          match rest' with
          | [] => .ub
          | _ :: rest'' =>
            match buf[digitRun (c1 :: rest') 0]? with
            | none => .ub
            | some none => .ub
            | some (some v) =>
              if v.error then abortWrite es flen out
              else
                match renderFmtVal rf flen v out with
                | .ub => .ub
                | .fail => .fail
                | .ok out1 => fmtPass2 rf es acount flen rest'' args buf cur out1
        else
          if out.length ≤ flen then
            fmtPass2 rf es acount flen (c1 :: rest') args buf cur (out.push c)
          else .ub
    else
      if out.length ≤ flen then fmtPass2 rf es acount flen rest args buf cur (out.push c)
      else .ub

/-- `string_format(format, ...)` (lines 676–859).  `es` is the current
error-channel slot (read by the abort writes).  Undefined when pass 1
scans past the template end or reads `va_arg` more often than arguments
were supplied.  The two `malloc`s are modelled as succeeding (their
failure branches return `NULL`/are unchecked; no claim concerns them). -/
def string_format (rf : Nat → String) (es : EassError) (t : String)
    (args : List DVal) : FmtRes :=
  match fmtPass1 0 0 0 t.data with
  | none => .ub
  | some (acount, flen, vcount) =>
    if args.length < vcount then .ub
    else fmtPass2 rf es acount flen t.data args (List.replicate acount none) 0 ""

-- sanity checks while developing
example : string_format (fun _ => "") ⟨7, "boom"⟩ "x" [] = .ok "x" := rfl
example :
    string_format (fun _ => "") ⟨7, "boom"⟩ "a \x7b\x7d b" [DVal.vInt false 5]
      = .ok "a 5 b" := rfl
example :
    string_format (fun _ => "") ⟨7, "boom"⟩ "\x7b1\x7d then \x7b0\x7d"
      [DVal.vInt false 10, DVal.vInt false 20] = .ub := rfl
example :
    string_format (fun _ => "") ⟨7, "boom"⟩ "\x7b\x7d\x7b\x7d then \x7b1\x7d and \x7b0\x7d"
      [DVal.vInt false 10, DVal.vInt false 20, DVal.vInt false 30, DVal.vInt false 40]
      = .ok "1020 then 20 and 10" := rfl
example :
    string_format (fun _ => "") ⟨7, "boom"⟩ "\x7b\x7d\x7b0x"
      [DVal.vInt false 7, DVal.vInt false 8] = .ok "77" := rfl
set_option maxRecDepth 4000 in
example :
    string_format (fun _ => "") ⟨7, "boom"⟩ "\x7b\x7d"
      [DVal.vString false 3 (String.mk (List.replicate 129 'a'))] = .ub := rfl
set_option maxRecDepth 4000 in
example :
    string_format (fun _ => "") ⟨7, "boom"⟩ "\x7b\x7d"
      [DVal.vString false 3 (String.mk (List.replicate 128 'a'))]
      = .ok (String.mk (List.replicate 128 'a')) := rfl

/-! ### Reference tokenization of the template grammar

`tokenize` states the placeholder contract that `string_format` actually
implements, one token per scan step:

* `\x7b\x7d` is an implicit placeholder (`hole`);
* `\x7b` followed immediately by a decimal digit is an explicit placeholder
  (`iplace n`) spanning exactly **three** characters — the brace, the
  digit, and whichever character follows (consumed blindly, `\x7d` or not) —
  with `n` parsed from the maximal digit run after the brace;
* `\x7b` followed by a digit as the last two characters of the template is
  a `cut`: the scan runs past the end (undefined);
* any other brace content — `\x7b` followed by a character that is neither
  `\x7d` nor a digit, or `\x7b` at the end of the template — is literal text,
  as is every character outside a placeholder.
-/

/-- Template tokens of the reference formatter. -/
inductive FTok where
  | lit (c : Char)
  | hole
  | iplace (n : Nat)
  | cut
deriving DecidableEq, Repr

/-- Reference tokenizer (see the section comment above). -/
def tokenize : List Char → List FTok
  | [] => []
  | c :: rest =>
    if c = '{' then
      match rest with
      | [] => [FTok.lit c]
      | c1 :: rest' =>
        if c1 = '}' then FTok.hole :: tokenize rest'
        else if c1.isDigit then
          match rest' with
          | [] => [FTok.cut]
          | _ :: rest'' => FTok.iplace (digitRun (c1 :: rest') 0) :: tokenize rest''
        else FTok.lit c :: tokenize (c1 :: rest')
    else FTok.lit c :: tokenize rest

/-- Whether the token list ends in a `cut` (undefined scan). -/
def hasCut : List FTok → Bool
  | [] => false
  | FTok.cut :: _ => true
  | _ :: ts => hasCut ts

/-- Reference counterpart of pass 1: (`arg_count`, length bound,
`va_arg` count) accumulated over the token list. -/
def refCounts : Nat → Nat → Nat → List FTok → Nat × Nat × Nat
  | a, f, v, [] => (a, f, v)
  | a, f, v, FTok.lit _ :: ts => refCounts a (f + 1) v ts
  | a, f, v, FTok.hole :: ts => refCounts (a + 1) (f + 128) (v + 1) ts
  | a, f, v, FTok.iplace n :: ts => refCounts (max n a) (f + 128) (v + 1) ts
  | a, f, v, FTok.cut :: ts => refCounts a f v ts

/-- Reference counterpart of pass 2, over tokens, with the same output
budget `flen`: a literal token is written by the unchecked byte store
(defined iff the position is inside the buffer), a placeholder's
rendering goes through the shared `writePiece`/`renderFmtVal`/`abortWrite`
machinery, and the final NUL needs the position inside the buffer. -/
def refRun (rf : Nat → String) (es : EassError) (acount flen : Nat) :
    List FTok → List DVal → List (Option DVal) → Nat → String → FmtRes
  | [], _, _, _, out => if out.length ≤ flen then .ok out else .ub
  | FTok.cut :: _, _, _, _, _ => .ub
  | FTok.lit c :: ts, args, buf, cur, out =>
      if out.length ≤ flen then refRun rf es acount flen ts args buf cur (out.push c)
      else .ub
  | FTok.hole :: ts, args, buf, cur, out =>
      match args with
      | [] => .ub
      | v :: args' =>
        let buf' := if cur < acount then buf.set cur (some v) else buf
        if v.error then abortWrite es flen out
        else
          match renderFmtVal rf flen v out with
          | .ub => .ub
          | .fail => .fail
          | .ok out1 => refRun rf es acount flen ts args' buf' (cur + 1) out1
  | FTok.iplace n :: ts, args, buf, cur, out =>
      match buf[n]? with
      | none => .ub
      | some none => .ub
      | some (some v) =>
        if v.error then abortWrite es flen out
        else
          match renderFmtVal rf flen v out with
          | .ub => .ub
          | .fail => .fail
          | .ok out1 => refRun rf es acount flen ts args buf cur out1

/-- Reference formatter: tokenize, then interpret the tokens under the
pre-scan's capture-buffer size and output budget.  A template whose scan
runs past the end, or an argument list shorter than the number of
`va_arg` reads of the pre-scan, is undefined. -/
def refFormat (rf : Nat → String) (es : EassError) (t : String)
    (args : List DVal) : FmtRes :=
  let ts := tokenize t.data
  if hasCut ts then .ub
  else
    let acount := (refCounts 0 0 0 ts).1
    let flen := (refCounts 0 0 0 ts).2.1
    if args.length < (refCounts 0 0 0 ts).2.2 then .ub
    else refRun rf es acount flen ts args (List.replicate acount none) 0 ""

/-! ### `print` (lines 459–519)

`print` scans for `\x7b\x7d` only (`*p=='\x7b' && *(p+1)=='\x7d'`); every other
character — including any other brace content and a trailing `\x7b` — is
echoed verbatim.  For each `\x7b\x7d` it consumes one variadic argument; if
that argument has `error` set it prints `Error: <code> - <message>` from
the current error channel and **returns immediately** (no newline, no
further scanning, and no release of that argument).  Otherwise it renders
the argument and releases it with `free_dynamic_value` before continuing.
After the loop it prints a newline.  The model returns the bytes written
and the list of heap identifiers freed; `none` marks undefined behaviour
(`va_arg` past the supplied arguments, or rendering touching
uninitialized memory). -/

/-- The scan loop of `print` (lines 463–516) followed by the final
newline (line 518); `es` is the current error-channel slot, `out` the
bytes written so far, `freed` the identifiers freed so far. -/
def printRun (rf : Nat → String) (es : EassError) :
    List Char → List DVal → String → List Nat → Option (String × List Nat)
  | [], _, out, freed => some (out ++ "\n", freed)
  | c :: rest, args, out, freed =>
    if c = '{' then
      match rest with
      | [] => some ((out.push c) ++ "\n", freed)
      | c1 :: rest' =>
        if c1 = '}' then
          match args with
          | [] => none
          | v :: args' =>
            if v.error then some (out ++ errText es, freed)
            else
              match renderPrint rf v with
              | none => none
              | some s => printRun rf es rest' args' (out ++ s) (freed ++ free_dynamic_value v)
        else printRun rf es (c1 :: rest') args (out.push c) freed
    else printRun rf es rest args (out.push c) freed

/-- `print(format, ...)`: bytes written and identifiers freed. -/
def print (rf : Nat → String) (es : EassError) (t : String) (args : List DVal) :
    Option (String × List Nat) :=
  printRun rf es t.data args "" []

/-- Number of `\x7b\x7d` placeholders `print` scans in a template (the
arguments it consumes when none of them fails). -/
def holeCount : List Char → Nat
  | [] => 0
  | c :: rest =>
    if c = '{' then
      match rest with
      | [] => 0
      | c1 :: rest' =>
        if c1 = '}' then holeCount rest' + 1
        else holeCount (c1 :: rest')
    else holeCount rest

/-- A fixed float renderer for concrete instances (no claim depends on
`%f` rendering). -/
def rfZero : Nat → String := fun _ => ""

/-- A concrete error-channel slot for concrete instances. -/
def esBoom : EassError := ⟨7, "boom"⟩

/-- `array(0)` followed by the given appends, all allocations succeeding
(the setting of the C1 claim). -/
def appendAll (vs : List DVal) : DynArr :=
  vs.foldl (fun a v => (array_append true 0 a v).1) (array true 0 0).1

/-- A full array `[Int 1, Int 2]` with `size == capacity == 2`: created
with capacity 2, then two appends (no growth needed). -/
def arrTwo : DynArr :=
  (array_append true 0
    (array_append true 0 (array true 0 2).1 (DVal.vInt false 1)).1
    (DVal.vInt false 2)).1

-- sanity checks while developing
example : arrTwo.data = [some (DVal.vInt false 1), some (DVal.vInt false 2)] := rfl
example : arrTwo.size = 2 ∧ arrTwo.capacity = 2 := ⟨rfl, rfl⟩
example :
    print rfZero esBoom "a\x7b\x7db" [DVal.vNull true]
      = some ("aError: 7 - boom", []) := rfl
example :
    print rfZero esBoom "v=\x7b\x7d!" [DVal.vString false 42 "hi"]
      = some ("v=hi!\n", [42]) := rfl

/-! ## Theorems -/

/-- Helper: writing `x` at position `n` and taking `n + 1` elements yields
the first `n` old elements followed by `x`. -/
theorem take_set_succ {α : Type} (l : List α) (n : Nat) (x : α) (h : n < l.length) :
    (l.set n x).take (n + 1) = l.take n ++ [x] := by
  rw [List.take_succ, List.getElem?_set_self h, List.set_take,
    List.set_eq_of_length_le (by rw [List.length_take]; exact Nat.min_le_left _ _)]
  rfl

/-- One successful `array_append` on a well-formed, non-failed array:
the length/capacity invariants are preserved, `size` increments, and the
logical contents gain `val` at the end. -/
theorem array_append_ok_step (arr : DynArr) (v : DVal) (fid : Nat)
    (he : arr.error = false) (hlen : arr.data.length = arr.capacity)
    (hsz : arr.size ≤ arr.capacity) :
    (array_append true fid arr v).1.error = false ∧
    (array_append true fid arr v).1.data.length = (array_append true fid arr v).1.capacity ∧
    (array_append true fid arr v).1.size ≤ (array_append true fid arr v).1.capacity ∧
    (array_append true fid arr v).1.size = arr.size + 1 ∧
    (array_append true fid arr v).1.data.take ((array_append true fid arr v).1.size)
      = arr.data.take arr.size ++ [some v] := by
  by_cases hge : arr.size ≥ arr.capacity
  · simp only [array_append]
    rw [if_neg (by simp [he]), if_pos hge, if_pos trivial]
    dsimp only
    set new_cap := if arr.capacity + arr.capacity / 2 < 4 then 4
      else arr.capacity + arr.capacity / 2 with hnc
    have hlt : arr.capacity < new_cap := by rw [hnc]; split <;> omega
    have htake : arr.data.take new_cap = arr.data :=
      List.take_of_length_le (by omega)
    have hglen :
        (arr.data.take new_cap ++ List.replicate (new_cap - arr.data.length) none).length
          = new_cap := by
      rw [List.length_append, List.length_replicate, htake]; omega
    refine ⟨he, ?_, ?_, rfl, ?_⟩
    · rw [List.length_set]; exact hglen
    · omega
    · rw [take_set_succ _ arr.size (some v) (by rw [hglen]; omega), htake,
        List.take_append_of_le_length (by omega)]
  · push_neg at hge
    simp only [array_append]
    rw [if_neg (by simp [he]), if_neg (by omega : ¬ arr.size ≥ arr.capacity)]
    dsimp only
    refine ⟨he, ?_, ?_, rfl, ?_⟩
    · rw [List.length_set]; exact hlen
    · omega
    · exact take_set_succ arr.data arr.size (some v) (by omega)

/-- Folding successful appends over a well-formed, non-failed array
appends the values, in order, to the logical contents. -/
theorem foldl_append_spec (vs : List DVal) :
    ∀ (arr : DynArr), arr.error = false → arr.data.length = arr.capacity →
      arr.size ≤ arr.capacity →
      (vs.foldl (fun a v => (array_append true 0 a v).1) arr).error = false ∧
      (vs.foldl (fun a v => (array_append true 0 a v).1) arr).size = arr.size + vs.length ∧
      (vs.foldl (fun a v => (array_append true 0 a v).1) arr).data.take
          ((vs.foldl (fun a v => (array_append true 0 a v).1) arr).size)
        = arr.data.take arr.size ++ vs.map some := by
  induction vs with
  | nil =>
    intro arr he hlen hsz
    exact ⟨he, by simp, by simp⟩
  | cons v vs ih =>
    intro arr he hlen hsz
    obtain ⟨h1, h2, h3, h4, h5⟩ := array_append_ok_step arr v 0 he hlen hsz
    obtain ⟨g1, g2, g3⟩ := ih ((array_append true 0 arr v).1) h1 h2 h3
    refine ⟨by simpa using g1, ?_, ?_⟩
    · simp only [List.foldl_cons, List.length_cons]
      rw [g2, h4]; omega
    · simp only [List.foldl_cons, List.map_cons]
      rw [g3, h5, List.append_assoc]
      rfl

/-- C1: on an array created with capacity 0, a sequence of N successful
appends (allocation succeeding at every growth) yields `size = N` and, at
every index `i < N`, exactly the i-th appended value, in order. -/
theorem array_append_sequence_correct (vs : List DVal) :
    (appendAll vs).size = vs.length ∧
    ∀ i, (h : i < vs.length) → (appendAll vs).data[i]? = some (some vs[i]) := by
  obtain ⟨h1, h2, h3⟩ := foldl_append_spec vs (array true 0 0).1 rfl rfl (Nat.le_refl 0)
  have hsz : (appendAll vs).size = vs.length := by
    simpa [appendAll, array] using h2
  refine ⟨hsz, ?_⟩
  intro i h
  have htake : (appendAll vs).data.take ((appendAll vs).size) = vs.map some := by
    simpa [appendAll, array] using h3
  have hi : i < (appendAll vs).size := by omega
  calc (appendAll vs).data[i]?
      = ((appendAll vs).data.take ((appendAll vs).size))[i]? :=
        (List.getElem?_take_of_lt hi).symm
    _ = (vs.map some)[i]? := by rw [htake]
    _ = some (some vs[i]) := by
        rw [List.getElem?_map, List.getElem?_eq_getElem h]; rfl

/-- C1 witness: three concrete appends on `array(0)`. -/
theorem array_append_sequence_correct_witness :
    (appendAll [DVal.vInt false 4, DVal.vString false 9 "a", DVal.vInt false 6]).size
      = [DVal.vInt false 4, DVal.vString false 9 "a", DVal.vInt false 6].length ∧
    (appendAll [DVal.vInt false 4, DVal.vString false 9 "a", DVal.vInt false 6]).data[1]?
      = some (some (DVal.vString false 9 "a")) :=
  ⟨(array_append_sequence_correct _).1,
   (array_append_sequence_correct
      [DVal.vInt false 4, DVal.vString false 9 "a", DVal.vInt false 6]).2 1 (by decide)⟩

/-- C2 (code bug): on the full array `[Int 1, Int 2]` (`size == capacity
== 2`), a successful `array_insert` at index 0 takes the growth path,
which `realloc`s and then stores the new element **without shifting**:
the resulting buffer is `[3, 2, ?, ?]` with logical length 3 — the old
element `1` is gone (index 1 now holds `2`, not `1`), and slot 2 is
uninitialized. -/
theorem array_insert_growth_drops_element :
    arrTwo.size = 2 ∧ arrTwo.capacity = 2 ∧
    arrTwo.data = [some (DVal.vInt false 1), some (DVal.vInt false 2)] ∧
    (array_insert true 1 arrTwo 0 (DVal.vInt false 3)).1.size = 3 ∧
    (array_insert true 1 arrTwo 0 (DVal.vInt false 3)).1.data
      = [some (DVal.vInt false 3), some (DVal.vInt false 2), none, none] ∧
    (array_insert true 1 arrTwo 0 (DVal.vInt false 3)).1.data[1]?
      ≠ some (some (DVal.vInt false 1)) := by
  refine ⟨rfl, rfl, rfl, rfl, rfl, ?_⟩
  intro hEq
  have h1 : DVal.vInt false 2 = DVal.vInt false 1 :=
    Option.some.inj (Option.some.inj hEq)
  have h2 : (2 : Int) = 1 := by injection h1
  exact absurd h2 (by decide)

/-- C3 (code bug): inserting `Int 3` at index 0 of the full array
`[Int 1, Int 2]` and then removing index 0 does return the inserted
value `Int 3`, but does **not** restore the array: the contents are now
`[2, <uninitialized>]` instead of `[1, 2]`, because the insert's
`realloc` growth path lost element `1`. -/
theorem array_insert_remove_not_restored :
    array_remove (array_insert true 1 arrTwo 0 (DVal.vInt false 3)).1 0
      = some (DVal.vInt false 3,
          ⟨[some (DVal.vInt false 2), none, none, none], 2, 4, false, some 1⟩, none) ∧
    arrTwo.data.take arrTwo.size
      = [some (DVal.vInt false 1), some (DVal.vInt false 2)] ∧
    (⟨[some (DVal.vInt false 2), none, none, none], 2, 4, false, some 1⟩ : DynArr).data.take 2
      = [some (DVal.vInt false 2), none] ∧
    ([some (DVal.vInt false 2), none] : List (Option DVal))
      ≠ [some (DVal.vInt false 1), some (DVal.vInt false 2)] := by
  refine ⟨rfl, rfl, rfl, ?_⟩
  intro hEq
  have h1 := congrArg (fun l : List (Option DVal) => l[1]?) hEq
  simp only [List.getElem?_cons_succ, List.getElem?_cons_zero] at h1
  exact Option.noConfusion (Option.some.inj h1)

/-- C5 (code bug): the `numlit` `_Generic` association, as written in the
source, sends an argument of static type `int` to the `EASS_FLOAT`
construction (the type names `int`, `float`, `double` are grouped before
a single `:`), contradicting both the claim (integral types → Int) and
the header's own usage example (`numlit(10)` documented as an int). -/
theorem numlit_int_static_dispatch :
    CNumType.cInt.isIntegral = true ∧
    numlitKind CNumType.cInt = EassType.eFloat ∧
    EassType.eFloat ≠ EassType.eInt := by decide

/-- C6: on a non-failed array, `array_get`/`array_remove` with an index
`≥ size` and `array_insert` with an index `> size` are rejected: they set
the error channel to `EINVAL` ("Index out of bounds in ..."), `get` and
`remove` return the failed Null value, `insert` returns the array — and
in each case the array (data, size, capacity, flags) is unchanged. -/
theorem array_bounds_rejection (arr : DynArr) (i : Nat) (v : DVal)
    (allocOk : Bool) (fid : Nat) (he : arr.error = false) :
    (arr.size ≤ i →
      array_get arr i
          = some (nullFailed, some ⟨EINVAL, "Index out of bounds in array_get"⟩) ∧
      array_remove arr i
          = some (nullFailed, arr, some ⟨EINVAL, "Index out of bounds in array_remove"⟩)) ∧
    (arr.size < i →
      array_insert allocOk fid arr i v
          = (arr, some ⟨EINVAL, "Index out of bounds in array_insert"⟩)) := by
  constructor
  · intro hb
    constructor
    · simp [array_get, he, hb]
    · simp [array_remove, he, hb]
  · intro hb
    simp only [array_insert]
    rw [if_neg (by simp [he]), if_pos (by omega : i > arr.size)]

/-- C6 witness: a one-element array queried at index 5. -/
theorem array_bounds_rejection_witness :
    (array_get ⟨[some (DVal.vInt false 1)], 1, 1, false, some 0⟩ 5
        = some (nullFailed, some ⟨EINVAL, "Index out of bounds in array_get"⟩) ∧
      array_remove ⟨[some (DVal.vInt false 1)], 1, 1, false, some 0⟩ 5
        = some (nullFailed, ⟨[some (DVal.vInt false 1)], 1, 1, false, some 0⟩,
            some ⟨EINVAL, "Index out of bounds in array_remove"⟩)) ∧
    array_insert false 3 ⟨[some (DVal.vInt false 1)], 1, 1, false, some 0⟩ 5 (DVal.vNull false)
      = (⟨[some (DVal.vInt false 1)], 1, 1, false, some 0⟩,
          some ⟨EINVAL, "Index out of bounds in array_insert"⟩) :=
  ⟨(array_bounds_rejection ⟨[some (DVal.vInt false 1)], 1, 1, false, some 0⟩ 5
      (DVal.vNull false) false 3 rfl).1 (by decide),
   (array_bounds_rejection ⟨[some (DVal.vInt false 1)], 1, 1, false, some 0⟩ 5
      (DVal.vNull false) false 3 rfl).2 (by decide)⟩

/-- C7: on an array whose `error` flag is set, `array_append`,
`array_insert` and `array_remove` are no-ops: the array is returned
unchanged (data, size, capacity, flags), no error-channel write is
performed, and the failure propagates (`append`/`insert` return the
failed array itself, `remove` returns the failed Null value). -/
theorem failed_array_mutations_noop (arr : DynArr) (h : arr.error = true)
    (v : DVal) (i : Nat) (allocOk : Bool) (fid : Nat) :
    array_append allocOk fid arr v = (arr, none) ∧
    array_insert allocOk fid arr i v = (arr, none) ∧
    array_remove arr i = some (nullFailed, arr, none) := by
  refine ⟨?_, ?_, ?_⟩
  · simp [array_append, h]
  · simp [array_insert, h]
  · simp [array_remove, h]

/-- C7 witness: a concrete failed array. -/
theorem failed_array_mutations_noop_witness :
    array_append true 9 ⟨[none, none], 1, 2, true, some 4⟩ (DVal.vInt false 5)
        = (⟨[none, none], 1, 2, true, some 4⟩, none) ∧
    array_insert true 9 ⟨[none, none], 1, 2, true, some 4⟩ 0 (DVal.vInt false 5)
        = (⟨[none, none], 1, 2, true, some 4⟩, none) ∧
    array_remove ⟨[none, none], 1, 2, true, some 4⟩ 0
        = some (nullFailed, ⟨[none, none], 1, 2, true, some 4⟩, none) :=
  failed_array_mutations_noop ⟨[none, none], 1, 2, true, some 4⟩ rfl
    (DVal.vInt false 5) 0 true 9

/-- C4 counterexample: formatting `"\x7b1\x7d then \x7b0\x7d"` with the two
arguments (Int 10, Int 20) does **not** yield `"20 then 10"`: explicit
`\x7bN\x7d` placeholders never consume a variadic argument, they index the
capture buffer filled only by `\x7b\x7d` placeholders, so here nothing is
captured; pass 1 sizes the buffer at `max(1,0) = 1`, and `\x7b1\x7d` reads
`arg_values[1]` out of bounds — the result is undefined. -/
theorem string_format_explicit_index_counterexample :
    string_format rfZero esBoom "\x7b1\x7d then \x7b0\x7d"
        [DVal.vInt false 10, DVal.vInt false 20] = FmtRes.ub ∧
    FmtRes.ub ≠ FmtRes.ok "20 then 10" := ⟨rfl, by decide⟩

/-- C4 amended: an explicit `\x7bN\x7d` renders the N-th argument *captured by
a `\x7b\x7d` placeholder* (pass 2 stores each `\x7b\x7d`-consumed argument in the
`arg_values` buffer; `\x7bN\x7d` reads that buffer and consumes nothing).
With `"\x7b\x7d\x7b\x7d then \x7b1\x7d and \x7b0\x7d"` — four placeholders, hence four
`va_arg` reads in the counting pass, requiring four supplied arguments —
and arguments (10, 20, 30, 40), the two `\x7b\x7d` capture 10 and 20 and the
explicit indices replay them: the result is `"1020 then 20 and 10"`. -/
theorem string_format_capture_indexing :
    string_format rfZero esBoom "\x7b\x7d\x7b\x7d then \x7b1\x7d and \x7b0\x7d"
      [DVal.vInt false 10, DVal.vInt false 20, DVal.vInt false 30, DVal.vInt false 40]
      = FmtRes.ok "1020 then 20 and 10" := rfl

/-- C9 counterexample: `print("a\x7b\x7db", v)` with a failed argument prints
the error description and returns immediately — the output
`"aError: 7 - boom"` is not newline-terminated. -/
theorem print_error_no_newline_counterexample :
    print rfZero esBoom "a\x7b\x7db" [DVal.vNull true]
        = some ("aError: 7 - boom", []) ∧
    ∀ s : String, "aError: 7 - boom" ≠ s ++ "\n" := by
  refine ⟨rfl, ?_⟩
  intro s h
  have h1 := congrArg (fun t : String => t.data.getLast?) h
  simp only [String.data_append] at h1
  rw [List.getLast?_concat] at h1
  have h2 : some 'm' = some '\n' := h1
  exact absurd (Option.some.inj h2) (by decide)

/-- Helper: when every supplied argument is non-failed, the `print` loop
never takes the early-return branch, so whatever it outputs ends in the
final newline. -/
theorem printRun_newline (rf : Nat → String) (es : EassError) :
    ∀ (l : List Char) (args : List DVal) (out : String) (freed : List Nat)
      (r : String × List Nat),
      (∀ v ∈ args, v.error = false) →
      printRun rf es l args out freed = some r →
      ∃ s, r.1 = s ++ "\n"
  | [], args, out, freed, r => by
    intro _ hr
    simp only [printRun] at hr
    exact ⟨out, (congrArg Prod.fst (Option.some.inj hr)).symm⟩
  | c :: rest, args, out, freed, r => by
    intro hargs hr
    cases rest with
    | nil =>
      by_cases hc : c = '{'
      · subst hc
        simp only [printRun, if_true, ite_self] at hr
        exact ⟨out.push '{', (congrArg Prod.fst (Option.some.inj hr)).symm⟩
      · simp only [printRun, if_neg hc] at hr
        exact ⟨out.push c, (congrArg Prod.fst (Option.some.inj hr)).symm⟩
    | cons c1 rest' =>
      by_cases hc : c = '{'
      · subst hc
        by_cases h1 : c1 = '}'
        · subst h1
          cases args with
          | nil => simp [printRun] at hr
          | cons v args' =>
            have hv : v.error = false := hargs v (List.mem_cons_self v args')
            simp only [printRun, if_true, ite_self, hv, Bool.false_eq_true, if_false] at hr
            cases hrp : renderPrint rf v with
            | none => rw [hrp] at hr; simp at hr
            | some s =>
              rw [hrp] at hr
              exact printRun_newline rf es rest' args' (out ++ s)
                (freed ++ free_dynamic_value v) r
                (fun w hw => hargs w (List.mem_cons_of_mem v hw)) hr
        · simp only [printRun, if_true, ite_self, if_neg h1] at hr
          exact printRun_newline rf es (c1 :: rest') args (out.push '{') freed r hargs hr
      · simp only [printRun, if_neg hc] at hr
        exact printRun_newline rf es (c1 :: rest') args (out.push c) freed r hargs hr

/-- C9 amended: `print` terminates the line with a newline exactly on the
calls in which no consumed argument has `failed=true`: (1) if every
supplied argument is non-failed, any defined output ends in a newline;
(2) if the argument consumed by a placeholder has `failed=true`, `print`
writes the error description and returns immediately — no newline is
written, no further placeholders are scanned, and the failed argument is
not released. -/
theorem print_newline_policy :
    (∀ (rf : Nat → String) (es : EassError) (t : String) (args : List DVal)
        (r : String × List Nat),
        (∀ v ∈ args, v.error = false) →
        print rf es t args = some r → ∃ s, r.1 = s ++ "\n") ∧
    (∀ (rf : Nat → String) (es : EassError) (post : List Char) (v : DVal)
        (args' : List DVal),
        v.error = true →
        print rf es (String.mk ('{' :: '}' :: post)) (v :: args')
          = some (errText es, [])) := by
  constructor
  · intro rf es t args r h hp
    exact printRun_newline rf es t.data args "" [] r h hp
  · intro rf es post v args' hv
    show printRun rf es ('{' :: '}' :: post) (v :: args') "" [] = _
    simp [printRun, hv]

/-- C9 witness: both parts of the newline policy at concrete inputs. -/
theorem print_newline_policy_witness :
    (∃ s : String, ("hi 5\n" : String) = s ++ "\n") ∧
    print rfZero esBoom (String.mk ('{' :: '}' :: "xyz".data))
        [DVal.vNull true, DVal.vInt false 3]
      = some (errText esBoom, []) :=
  ⟨print_newline_policy.1 rfZero esBoom "hi \x7b\x7d" [DVal.vInt false 5] ("hi 5\n", [])
      (by intro v hv; simp only [List.mem_singleton] at hv; subst hv; rfl) rfl,
   print_newline_policy.2 rfZero esBoom "xyz".data (DVal.vNull true)
      [DVal.vInt false 3] rfl⟩

/-- Helper: when every supplied argument is non-failed, the identifiers
freed by the `print` loop are exactly those of the consumed arguments
(one per `\x7b\x7d` placeholder, in order), each released in full by
`free_dynamic_value`. -/
theorem printRun_freed (rf : Nat → String) (es : EassError) :
    ∀ (l : List Char) (args : List DVal) (out : String) (freed : List Nat)
      (r : String × List Nat),
      (∀ v ∈ args, v.error = false) →
      printRun rf es l args out freed = some r →
      r.2 = freed ++ (args.take (holeCount l)).flatMap free_dynamic_value
  | [], args, out, freed, r => by
    intro _ hr
    simp only [printRun] at hr
    rw [← Option.some.inj hr]
    simp [holeCount]
  | c :: rest, args, out, freed, r => by
    intro hargs hr
    cases rest with
    | nil =>
      by_cases hc : c = '{'
      · subst hc
        simp only [printRun, if_true, ite_self] at hr
        rw [← Option.some.inj hr]
        simp [holeCount]
      · simp only [printRun, if_neg hc] at hr
        rw [← Option.some.inj hr]
        simp [holeCount, if_neg hc]
    | cons c1 rest' =>
      by_cases hc : c = '{'
      · subst hc
        by_cases h1 : c1 = '}'
        · subst h1
          cases args with
          | nil => simp [printRun] at hr
          | cons v args' =>
            have hv : v.error = false := hargs v (List.mem_cons_self v args')
            simp only [printRun, if_true, ite_self, hv, Bool.false_eq_true, if_false] at hr
            cases hrp : renderPrint rf v with
            | none => rw [hrp] at hr; simp at hr
            | some s =>
              rw [hrp] at hr
              have g := printRun_freed rf es rest' args' (out ++ s)
                (freed ++ free_dynamic_value v) r
                (fun w hw => hargs w (List.mem_cons_of_mem v hw)) hr
              rw [g]
              simp only [holeCount, if_true, ite_self, List.take_succ_cons,
                List.flatMap_cons, List.append_assoc]
        · simp only [printRun, if_true, ite_self, if_neg h1] at hr
          have g := printRun_freed rf es (c1 :: rest') args (out.push '{') freed r hargs hr
          rw [g]
          simp only [holeCount, if_true, ite_self, if_neg h1]
      · simp only [printRun, if_neg hc] at hr
        have g := printRun_freed rf es (c1 :: rest') args (out.push c) freed r hargs hr
        rw [g]
        simp only [holeCount, if_neg hc]

/-- C10: `print` takes ownership of the arguments it consumes: (1) on a
defined call with no failed argument, the identifiers freed are exactly
the full recursive release (`free_dynamic_value`) of each argument
consumed by a `\x7b\x7d` placeholder, in order — a Text payload's buffer is
freed, an Array payload is released recursively; (2) `array_get` returns
the stored element verbatim (a shallow struct copy whose payload
identifiers are the array's own), so printing a value obtained from
`array_get` frees the array's own payload. -/
theorem print_releases_consumed_values :
    (∀ (rf : Nat → String) (es : EassError) (t : String) (args : List DVal)
        (r : String × List Nat),
        (∀ v ∈ args, v.error = false) →
        print rf es t args = some r →
        r.2 = (args.take (holeCount t.data)).flatMap free_dynamic_value) ∧
    (∀ (arr : DynArr) (i : Nat) (v : DVal),
        arr.error = false → i < arr.size → arr.data[i]? = some (some v) →
        array_get arr i = some (v, none)) := by
  constructor
  · intro rf es t args r h hp
    have g := printRun_freed rf es t.data args "" [] r h hp
    simpa using g
  · intro arr i v he hi hv
    simp only [array_get]
    rw [if_neg (by simp [he]), if_neg (by omega : ¬ i ≥ arr.size), hv]

/-- C10 witness: printing the Text value obtained by `array_get` from a
one-element array frees the array's own string payload (identifier 42). -/
theorem print_releases_consumed_values_witness :
    (("hi\n", [42]).2
        = ([DVal.vString false 42 "hi"].take
            (holeCount ("\x7b\x7d" : String).data)).flatMap free_dynamic_value) ∧
    array_get ⟨[some (DVal.vString false 42 "hi")], 1, 1, false, some 5⟩ 0
        = some (DVal.vString false 42 "hi", none) :=
  ⟨print_releases_consumed_values.1 rfZero esBoom "\x7b\x7d"
      [DVal.vString false 42 "hi"] ("hi\n", [42])
      (by intro v hv; simp only [List.mem_singleton] at hv; subst hv; rfl) rfl,
   print_releases_consumed_values.2
      ⟨[some (DVal.vString false 42 "hi")], 1, 1, false, some 5⟩ 0
      (DVal.vString false 42 "hi") rfl (by decide) rfl⟩

/-- Helper: pass 1 of `string_format` computes exactly the counts of the
reference tokenization, and is undefined exactly when the tokenization
ends in a `cut`. -/
theorem fmtPass1_tokenize : ∀ (l : List Char) (a f v : Nat),
    fmtPass1 a f v l
      = if hasCut (tokenize l) = true then none
        else some (refCounts a f v (tokenize l))
  | [], a, f, v => by
    simp [fmtPass1, tokenize, hasCut, refCounts]
  | [c], a, f, v => by
    by_cases hc : c = '{'
    · subst hc
      simp [fmtPass1, tokenize, hasCut, refCounts]
    · simp [fmtPass1, tokenize, hasCut, refCounts, if_neg hc]
  | [c, c1], a, f, v => by
    by_cases hc : c = '{'
    · subst hc
      by_cases h1 : c1 = '}'
      · subst h1
        simp [fmtPass1, tokenize, hasCut, refCounts]
      · by_cases hd : c1.isDigit = true
        · simp [fmtPass1, tokenize, hasCut, refCounts, if_neg h1, hd]
        · simp only [fmtPass1, tokenize, if_neg h1, hd, Bool.false_eq_true, if_false,
            if_true, ite_self, hasCut, refCounts]
    · simp only [fmtPass1, tokenize, if_neg hc, hasCut, refCounts]
      exact fmtPass1_tokenize [c1] a (f + 1) v
  | c :: c1 :: c2 :: rest'', a, f, v => by
    by_cases hc : c = '{'
    · subst hc
      by_cases h1 : c1 = '}'
      · subst h1
        simp only [fmtPass1, tokenize, if_true, ite_self, hasCut, refCounts]
        exact fmtPass1_tokenize (c2 :: rest'') (a + 1) (f + 128) (v + 1)
      · by_cases hd : c1.isDigit = true
        · simp only [fmtPass1, tokenize, if_neg h1, hd, if_true, ite_self,
            hasCut, refCounts]
          exact fmtPass1_tokenize rest'' (max (digitRun (c1 :: c2 :: rest'') 0) a)
            (f + 128) (v + 1)
        · simp only [fmtPass1, tokenize, if_neg h1, hd, Bool.false_eq_true, if_false,
            if_true, ite_self, hasCut, refCounts]
          exact fmtPass1_tokenize (c1 :: c2 :: rest'') a (f + 1) v
    · simp only [fmtPass1, tokenize, if_neg hc, hasCut, refCounts]
      exact fmtPass1_tokenize (c1 :: c2 :: rest'') a (f + 1) v

/-- Helper: pass 2 of `string_format` computes exactly the reference
interpretation of the tokenized template (same capture buffer, same
output budget). -/
theorem fmtPass2_tokenize (rf : Nat → String) (es : EassError) (acount flen : Nat) :
    ∀ (l : List Char) (args : List DVal) (buf : List (Option DVal)) (cur : Nat)
      (out : String),
      fmtPass2 rf es acount flen l args buf cur out
        = refRun rf es acount flen (tokenize l) args buf cur out
  | [], args, buf, cur, out => by
    simp [fmtPass2, tokenize, refRun]
  | [c], args, buf, cur, out => by
    by_cases hc : c = '{'
    · subst hc
      simp [fmtPass2, tokenize, refRun]
    · simp [fmtPass2, tokenize, refRun, if_neg hc]
  | [c, c1], args, buf, cur, out => by
    cases args with
    | nil =>
      by_cases hc : c = '{'
      · subst hc
        by_cases h1 : c1 = '}'
        · subst h1
          simp [fmtPass2, tokenize, refRun]
        · by_cases hd : c1.isDigit = true
          · simp [fmtPass2, tokenize, refRun, if_neg h1, hd]
          · simp [fmtPass2, tokenize, refRun, if_neg h1, hd]
      · simp [fmtPass2, tokenize, refRun, if_neg hc]
    | cons v args' =>
      by_cases hc : c = '{'
      · subst hc
        by_cases h1 : c1 = '}'
        · subst h1
          simp only [fmtPass2, tokenize, refRun, if_true, ite_self]
        · by_cases hd : c1.isDigit = true
          · simp [fmtPass2, tokenize, refRun, if_neg h1, hd]
          · simp [fmtPass2, tokenize, refRun, if_neg h1, hd]
      · simp [fmtPass2, tokenize, refRun, if_neg hc]
  | c :: c1 :: c2 :: rest'', args, buf, cur, out => by
    cases args with
    | nil =>
      by_cases hc : c = '{'
      · subst hc
        by_cases h1 : c1 = '}'
        · subst h1
          simp [fmtPass2, tokenize, refRun]
        · by_cases hd : c1.isDigit = true
          · simp only [fmtPass2, tokenize, refRun, if_neg h1, hd, if_true, ite_self]
            cases hb : buf[digitRun (c1 :: c2 :: rest'') 0]? with
            | none => simp [hb]
            | some o =>
              cases o with
              | none => simp [hb]
              | some v =>
                simp only [hb]
                by_cases hv : v.error = true
                · simp [hv]
                · simp only [hv, Bool.false_eq_true, if_false]
                  cases hrf : renderFmtVal rf flen v out with
                  | ub => simp [hrf]
                  | fail => simp [hrf]
                  | ok out1 =>
                    simp only [hrf]
                    exact fmtPass2_tokenize rf es acount flen rest'' [] buf cur out1
          · simp only [fmtPass2, tokenize, refRun, if_neg h1, hd, Bool.false_eq_true,
              if_false, if_true, ite_self]
            by_cases hout : out.length ≤ flen
            · simp only [hout, if_true]
              exact fmtPass2_tokenize rf es acount flen (c1 :: c2 :: rest'') [] buf cur
                (out.push '{')
            · simp [hout]
      · simp only [fmtPass2, tokenize, refRun, if_neg hc]
        by_cases hout : out.length ≤ flen
        · simp only [hout, if_true]
          exact fmtPass2_tokenize rf es acount flen (c1 :: c2 :: rest'') [] buf cur
            (out.push c)
        · simp [hout]
    | cons v args' =>
      by_cases hc : c = '{'
      · subst hc
        by_cases h1 : c1 = '}'
        · subst h1
          simp only [fmtPass2, tokenize, refRun, if_true, ite_self]
          by_cases hv : v.error = true
          · simp [hv]
          · simp only [hv, Bool.false_eq_true, if_false]
            cases hrf : renderFmtVal rf flen v out with
            | ub => simp [hrf]
            | fail => simp [hrf]
            | ok out1 =>
              simp only [hrf]
              exact fmtPass2_tokenize rf es acount flen (c2 :: rest'') args'
                (if cur < acount then buf.set cur (some v) else buf) (cur + 1) out1
        · by_cases hd : c1.isDigit = true
          · simp only [fmtPass2, tokenize, refRun, if_neg h1, hd, if_true, ite_self]
            cases hb : buf[digitRun (c1 :: c2 :: rest'') 0]? with
            | none => simp [hb]
            | some o =>
              cases o with
              | none => simp [hb]
              | some w =>
                simp only [hb]
                by_cases hv : w.error = true
                · simp [hv]
                · simp only [hv, Bool.false_eq_true, if_false]
                  cases hrf : renderFmtVal rf flen w out with
                  | ub => simp [hrf]
                  | fail => simp [hrf]
                  | ok out1 =>
                    simp only [hrf]
                    exact fmtPass2_tokenize rf es acount flen rest'' (v :: args') buf cur
                      out1
          · simp only [fmtPass2, tokenize, refRun, if_neg h1, hd, Bool.false_eq_true,
              if_false, if_true, ite_self]
            by_cases hout : out.length ≤ flen
            · simp only [hout, if_true]
              exact fmtPass2_tokenize rf es acount flen (c1 :: c2 :: rest'') (v :: args')
                buf cur (out.push '{')
            · simp [hout]
      · simp only [fmtPass2, tokenize, refRun, if_neg hc]
        by_cases hout : out.length ≤ flen
        · simp only [hout, if_true]
          exact fmtPass2_tokenize rf es acount flen (c1 :: c2 :: rest'') (v :: args') buf
            cur (out.push c)
        · simp [hout]

/-- C8 counterexample: the template `"\x7b\x7d\x7b0x"` contains the brace
content `\x7b0x` — a brace followed by a digit sequence not terminated by
`\x7d` — which the claim says is copied through as literal text (expected
output `"7\x7b0x"`).  The code instead consumes the three characters
`\x7b0x` as an explicit placeholder for index 0 and renders the captured
argument again: the output is `"77"`. -/
theorem string_format_brace_digit_counterexample :
    string_format rfZero esBoom "\x7b\x7d\x7b0x" [DVal.vInt false 7, DVal.vInt false 8]
        = FmtRes.ok "77" ∧
    FmtRes.ok "77" ≠ FmtRes.ok "7\x7b0x" := ⟨rfl, by decide⟩

/-- C8 amended: `string_format`'s placeholder contract is exactly the
reference tokenization `tokenize`: `\x7b\x7d` is an implicit placeholder
consuming the next argument; `\x7b` followed immediately by a digit is an
explicit placeholder spanning exactly three characters (the third is
consumed whether or not it is `\x7d`, so `\x7b12\x7d` consumes `\x7b12` and
leaves `\x7d` as literal text, and `\x7b1x` is a placeholder for index 1),
with the index parsed from the full digit run; `\x7b` followed by anything
else, or at the end of the template, is literal text; `\x7b` + digit as the
final two characters makes the scan undefined; explicit indices read the
capture buffer of `\x7b\x7d`-consumed arguments (sized by the pre-scan),
undefined when out of range or not yet captured.  Output is written into
a buffer budgeted by the pre-scan at 128 bytes per placeholder plus one
byte per literal character: a rendered piece that exceeds the remaining
budget is truncated by `snprintf` while `out_p` advances by the full
length, so the call is undefined (heap overflow on the next write), as is
a top-level error-abort write whose error text does not fit after the
current position.  Formally: `string_format` coincides with the reference
formatter — tokenization by these rules, interpreted under the same
capture buffer and output budget — on every template, error-channel
state, and argument list. -/
theorem string_format_tokenized_contract (rf : Nat → String) (es : EassError)
    (t : String) (args : List DVal) :
    string_format rf es t args = refFormat rf es t args := by
  unfold string_format refFormat
  rw [fmtPass1_tokenize t.data 0 0 0]
  by_cases hcut : hasCut (tokenize t.data) = true
  · simp [hcut]
  · simp only [hcut, Bool.false_eq_true, if_false]
    rcases hrc : refCounts 0 0 0 (tokenize t.data) with ⟨a, fl, vc⟩
    simp only [hrc]
    by_cases hlen : args.length < vc
    · simp [hlen]
    · simp only [hlen, if_false]
      exact fmtPass2_tokenize rf es a fl t.data args (List.replicate a none) 0 ""
